import Mathlib

/-!
Verification of the render-state synchronization and simulation-loop
orchestration layer of the 2D-particles-in-a-box visualizer
(`particles_vedo.py`).

The embedding mirrors the source:
* `Particle` embeds class `Particle` (a stored position/radius/color/resolution
  plus the vedo `Sphere` primitive it registered with the scene);
* `Particles` embeds class `Particles` (the entity collection built with
  `zip(positions, sizes)` and its `update` method);
* `SimState` embeds the attributes of class `ParticleSimulation`;
  `initSystem`, `runStep`/`runLoop`, `teardown` and the parameter setters
  embed `__init_system`, `run`, `__del__` and the property setters.

The external Fortran engine (`particle_driver`) is an opaque collaborator:
its data is supplied as oracle arguments (`esizes`, `epos`), and every call
to it (plus the per-frame scene interactions) is recorded in an event trace
so that call ordering can be stated and proved.

Numeric scalars are modelled as rationals; this layer performs no
arithmetic on them, it only copies them between buffers.
-/

/-- A 2D coordinate row of the position buffer (`self.__positions`). -/
abbrev V2 := ℚ × ℚ

/-- A 3D coordinate row of the render buffer (`self.__positions_3d`). -/
abbrev V3 := ℚ × ℚ × ℚ

/-- The vedo `Sphere` primitive created in `Particle.__init__`:
`Sphere(pos, r=radius, c=color, res=res)`, optionally with a trail. -/
structure Sphere where
  spos : V3
  sr : ℚ
  sc : String
  sres : ℕ
  trail : Bool
deriving DecidableEq, Repr

/-- The vedo plotter, observed through the primitives added to it
(`plt.add(sphere)` appends). -/
abbrev Scene := List Sphere

/-- Class `Particle`: stored attributes `__pos`, `__r`, `__color`, `__res`,
`use_trail`, and the registered primitive `vsphere`. -/
structure Particle where
  pos : V3
  r : ℚ
  color : String
  res : ℕ
  use_trail : Bool
  vsphere : Sphere
deriving DecidableEq, Repr

/-- `Particle.__init__(plt, pos, radius, color, res, use_trail)`.
Line 22 of the source assigns the literal `'gray'` to `self.__color`,
ignoring the `color` argument; the sphere is then created from the stored
attributes and added to the plotter. Returns the particle and the plotter
after `plt.add`. -/
def Particle.init (plt : Scene) (pos : V3) (radius : ℚ) (color : String)
    (res : ℕ) (use_trail : Bool) : Particle × Scene :=
  let storedColor := "gray"
  let sph : Sphere :=
    { spos := pos, sr := radius, sc := storedColor, sres := res, trail := use_trail }
  ({ pos := pos, r := radius, color := storedColor, res := res,
     use_trail := use_trail, vsphere := sph },
   plt ++ [sph])

/-- `pos` setter: updates the stored position and repositions the sphere
(`self.vsphere.pos(self.__pos)`). -/
def Particle.setPos (p : Particle) (pos : V3) : Particle :=
  { p with pos := pos, vsphere := { p.vsphere with spos := pos } }

/-- `r` setter: updates only `self.__r`; the sphere is untouched. -/
def Particle.setR (p : Particle) (r : ℚ) : Particle :=
  { p with r := r }

/-- `color` setter: updates only `self.__color`. -/
def Particle.setColor (p : Particle) (c : String) : Particle :=
  { p with color := c }

/-- `res` setter: updates only `self.__res`; the sphere is untouched. -/
def Particle.setRes (p : Particle) (res : ℕ) : Particle :=
  { p with res := res }

/-- The loop body of `Particles.__init__`: for each `(pos, size)` pair of the
zipped sequences, construct `Particle(plt, pos, size)` (color and resolution
left at their defaults `'gray'` and `8`, no trail) and collect it. -/
def mkParticles (plt : Scene) : List (V3 × ℚ) → List Particle × Scene
  | [] => ([], plt)
  | ps :: rest =>
    let pr := Particle.init plt ps.1 ps.2 "gray" 8 false
    let rec' := mkParticles pr.2 rest
    (pr.1 :: rec'.1, rec'.2)

/-- Class `Particles`: the list `self.__particles` of constructed entities. -/
structure Particles where
  particles : List Particle
deriving DecidableEq, Repr

/-- `Particles.__init__(plt, positions, sizes)`: iterates
`zip(self.__positions, self.__sizes)` — no length check is performed, `zip`
truncates to the shorter sequence. -/
def Particles.init (plt : Scene) (positions : List V3) (sizes : List ℚ) :
    Particles × Scene :=
  let pr := mkParticles plt (positions.zip sizes)
  (⟨pr.1⟩, pr.2)

/-- The loop of `Particles.update`: `for i, p in enumerate(self.__particles):
p.pos = self.__positions[i]`. Indexing out of range (Python `IndexError`)
is modelled as `none`. -/
def updateFrom (positions : List V3) : ℕ → List Particle → Option (List Particle)
  | _, [] => some []
  | i, p :: rest =>
    match positions.get? i with
    | none => none
    | some pos =>
      match updateFrom positions (i + 1) rest with
      | none => none
      | some rest' => some (p.setPos pos :: rest')

/-- `Particles.update()`, reading the shared positions buffer (passed
explicitly, since the Python object holds it by reference and the
orchestrator mutates it between calls). -/
def Particles.update (ps : Particles) (positions : List V3) : Option Particles :=
  (updateFrom positions 0 ps.particles).map (fun l => ⟨l⟩)

/-! ### Basic lemmas about the collection -/

theorem mkParticles_length (plt : Scene) (l : List (V3 × ℚ)) :
    (mkParticles plt l).1.length = l.length := by
  induction l generalizing plt with
  | nil => rfl
  | cons ps rest ih => simp [mkParticles, ih]

theorem Particles.init_length (plt : Scene) (positions : List V3) (sizes : List ℚ) :
    ((Particles.init plt positions sizes).1).particles.length
      = min positions.length sizes.length := by
  simp [Particles.init, mkParticles_length]

/-- `mkParticles` stores each pair's position as the particle's position. -/
theorem mkParticles_map_pos (plt : Scene) (l : List (V3 × ℚ)) :
    (mkParticles plt l).1.map Particle.pos = l.map Prod.fst := by
  induction l generalizing plt with
  | nil => rfl
  | cons ps rest ih => simp [mkParticles, Particle.init, ih]

/-- Totality and effect of the update loop: as long as every iterated index
is in range of the positions buffer, the loop succeeds and sets particle `i`'s
position to `positions[start + i]`. -/
theorem updateFrom_total (positions : List V3) (l : List Particle) (i : ℕ)
    (h : i + l.length ≤ positions.length) :
    ∃ l', updateFrom positions i l = some l' ∧
      l'.map Particle.pos = (positions.drop i).take l.length := by
  induction l generalizing i with
  | nil => exact ⟨[], rfl, by simp⟩
  | cons p rest ih =>
    have hi : i < positions.length := by
      simp only [List.length_cons] at h; omega
    obtain ⟨l', hl', hmap⟩ := ih (i + 1) (by simp only [List.length_cons] at h; omega)
    obtain ⟨pos, hpos⟩ : ∃ pos, positions[i]? = some pos :=
      ⟨positions[i], List.getElem?_eq_getElem hi⟩
    refine ⟨p.setPos pos :: l', ?_, ?_⟩
    · simp [updateFrom, List.get?_eq_getElem?, hpos, hl']
    · have h1 : positions[i] = pos := by
        have h2 := List.getElem?_eq_getElem hi
        rw [hpos] at h2
        exact (Option.some_inj.mp h2).symm
      have hdrop : positions.drop i = pos :: positions.drop (i + 1) := by
        rw [List.drop_eq_getElem_cons hi, h1]
      simp [Particle.setPos, hmap, hdrop]

/-! ### The orchestrator (`ParticleSimulation`) -/

/-- One observable call to the engine (`particle_driver`) or to the scene. -/
inductive Event where
  | deallocate
  | einit (n : ℕ) (rmin rmax vmax : ℚ)
  | getSizes
  | getPositions
  | collisionCheck
  | boundaryCheck
  | engineUpdate
  | syncBuffers
  | collectionUpdate
  | present (resetcam : Bool)
  | termCheck
deriving DecidableEq, Repr

/-- The attributes of `ParticleSimulation`. `particles` is `None` between the
constructor's field assignments and `__init_system`. -/
structure SimState where
  n_particles : ℕ
  r_min : ℚ
  r_max : ℚ
  v_max : ℚ
  plt : Scene
  initialised : Bool
  positions : List V2
  positions_3d : List V3
  sizes : List ℚ
  particles : Option Particles
deriving DecidableEq, Repr

/-- In-place fill of a preallocated buffer by the engine (f2py writes through
the argument array): the engine's data overwrites the first
`min (data.length) (buf.length)` entries, the rest of the buffer keeps its
old contents, and the buffer's length never changes. When the engine honours
its contract (`data.length = buf.length`) this is exactly `data`. -/
def fillBuf {α : Type} (buf data : List α) : List α :=
  data.take buf.length ++ buf.drop data.length

/-- `self.__positions_3d[:, :2] = self.__positions`: row `i` of the 3D buffer
gets its x and y from row `i` of the 2D buffer, keeping its own z. -/
def syncXY (p3 : List V3) (p2 : List V2) : List V3 :=
  List.zipWith (fun r3 r2 => (r2.1, r2.2, r3.2.2)) p3 p2

/-- `self.__positions_3d[:, 2] = 0.0`. -/
def zeroZ (p3 : List V3) : List V3 :=
  p3.map (fun r => (r.1, r.2.1, 0))

/-- The 2D buffer lifted to 3D rows with z = 0; the render buffer equals
`to3` of the position buffer exactly when the two are synchronized. -/
def to3 (p2 : List V2) : List V3 :=
  p2.map (fun r => (r.1, r.2, 0))

/-- `ParticleSimulation.__init_system`. The engine's answers to `get_sizes`
and `get_positions` are the oracle arguments `esizes` and `epos`. Returns the
new state and the trace of engine calls, in source order:
deallocate (only if already initialised), `init_system(n, r_min, r_max,
v_max)`, `get_sizes`, `get_positions`. -/
def initSystem (s : SimState) (esizes : List ℚ) (epos : List V2) :
    SimState × List Event :=
  let tr0 : List Event := if s.initialised then [Event.deallocate] else []
  let positions0 : List V2 := List.replicate s.n_particles (0, 0)
  let positions3d0 : List V3 := List.replicate s.n_particles (0, 0, 0)
  let sizes0 : List ℚ := List.replicate s.n_particles 0
  let sizes1 := fillBuf sizes0 esizes
  let positions1 := fillBuf positions0 epos
  let positions3d1 := zeroZ (syncXY positions3d0 positions1)
  let pr := Particles.init s.plt positions3d1 sizes1
  ({ s with positions := positions1, positions_3d := positions3d1,
            sizes := sizes1, particles := some pr.1, plt := pr.2,
            initialised := true },
   tr0 ++ [Event.einit s.n_particles s.r_min s.r_max s.v_max,
           Event.getSizes, Event.getPositions])

/-- `ParticleSimulation.__init__(plt, n_particles, r_min, r_max, v_max)`:
sets the fields, marks the system uninitialised, then runs
`__init_system`. -/
def ParticleSimulation.construct (plt : Scene) (n : ℕ) (rmin rmax vmax : ℚ)
    (esizes : List ℚ) (epos : List V2) : SimState × List Event :=
  initSystem
    { n_particles := n, r_min := rmin, r_max := rmax, v_max := vmax,
      plt := plt, initialised := false, positions := [], positions_3d := [],
      sizes := [], particles := none }
    esizes epos

/-- The `n_particles` property setter: assign, then `__init_system()`. -/
def setNParticles (s : SimState) (n : ℕ) (esizes : List ℚ) (epos : List V2) :
    SimState × List Event :=
  initSystem { s with n_particles := n } esizes epos

/-- The `r_min` property setter: assign, then `__init_system()`. -/
def setRMin (s : SimState) (v : ℚ) (esizes : List ℚ) (epos : List V2) :
    SimState × List Event :=
  initSystem { s with r_min := v } esizes epos

/-- The `r_max` property setter: assign, then `__init_system()`. -/
def setRMax (s : SimState) (v : ℚ) (esizes : List ℚ) (epos : List V2) :
    SimState × List Event :=
  initSystem { s with r_max := v } esizes epos

/-- The `v_max` property setter: assign, then `__init_system()`. -/
def setVMax (s : SimState) (v : ℚ) (esizes : List ℚ) (epos : List V2) :
    SimState × List Event :=
  initSystem { s with v_max := v } esizes epos

/-- `ParticleSimulation.__del__`: calls `particle_driver.deallocate_system()`
unconditionally — the source has no guard on `self.__initialised`. -/
def teardown (s : SimState) : SimState × List Event :=
  (s, [Event.deallocate])

/-- The engine and scene calls of one iteration of the `while True` loop in
`run`, in source order; `rc` is the camera-reset flag passed to
`plt.show(resetcam=rc)`. -/
def cycleEvents (rc : Bool) : List Event :=
  [Event.collisionCheck, Event.boundaryCheck, Event.engineUpdate,
   Event.getPositions, Event.syncBuffers, Event.collectionUpdate,
   Event.present rc, Event.termCheck]

/-- The state transformation of one iteration of `run`'s loop:
`get_positions(self.__positions)`, `self.__positions_3d[:, :2] =
self.__positions`, `self.__particles.update()`. Fails (`none`) if there is
no collection or `update` indexes out of range. -/
def runStep (s : SimState) (epos : List V2) : Option SimState :=
  let positions1 := fillBuf s.positions epos
  let positions3d1 := syncXY s.positions_3d positions1
  match s.particles with
  | none => none
  | some ps =>
    match ps.update positions3d1 with
    | none => none
    | some ps' =>
      some { s with positions := positions1, positions_3d := positions3d1,
                    particles := some ps' }

/-- The `while True` loop of `run`. `epos t` is the engine's answer to the
`t`-th `get_positions` call, `esc t` the value of `getattr(plt, "escaped",
False)` polled at the end of iteration `t`; `rc` is the current camera-reset
flag (set to `false` after the first presented frame). `fuel` bounds the
unrolling; `none` means the loop did not terminate within `fuel`
iterations (or a step failed). -/
def runLoop (s : SimState) (epos : ℕ → List V2) (esc : ℕ → Bool) (rc : Bool)
    (t fuel : ℕ) : Option (SimState × List Event) :=
  match fuel with
  | 0 => none
  | fuel' + 1 =>
    match runStep s (epos t) with
    | none => none
    | some s' =>
      if esc t then some (s', cycleEvents rc)
      else
        match runLoop s' epos esc false (t + 1) fuel' with
        | none => none
        | some pr => some (pr.1, cycleEvents rc ++ pr.2)

/-- `ParticleSimulation.run()`: enters the loop with `reset_cam = True`. -/
def ParticleSimulation.run (s : SimState) (epos : ℕ → List V2)
    (esc : ℕ → Bool) (fuel : ℕ) : Option (SimState × List Event) :=
  runLoop s epos esc true 0 fuel

/-- The sequence of camera-reset flags passed to `plt.show` in a trace. -/
def presentFlags (tr : List Event) : List Bool :=
  tr.filterMap (fun e =>
    match e with
    | Event.present b => some b
    | _ => none)

/-! ### Buffer lemmas -/

theorem fillBuf_length {α : Type} (buf data : List α) :
    (fillBuf buf data).length = buf.length := by
  simp only [fillBuf, List.length_append, List.length_take, List.length_drop]
  omega

theorem to3_length (p2 : List V2) : (to3 p2).length = p2.length := by
  simp [to3]

theorem syncXY_length (a : List V3) (b : List V2) :
    (syncXY a b).length = min a.length b.length := by
  simp [syncXY]

/-- Zeroing the z column right after an x/y copy yields exactly the lifted
2D buffer (this is the synchronization done in `__init_system`). -/
theorem zeroZ_syncXY (a : List V3) (b : List V2) (h : a.length = b.length) :
    zeroZ (syncXY a b) = to3 b := by
  induction a generalizing b with
  | nil =>
    have hb : b = [] := List.eq_nil_of_length_eq_zero (by simpa using h.symm)
    simp [hb, zeroZ, syncXY, to3]
  | cons r a ih =>
    cases b with
    | nil => simp at h
    | cons s b' =>
      simp only [List.length_cons, Nat.succ_inj] at h
      simp [zeroZ, syncXY, to3] at ih ⊢
      exact ih b' h

/-- An x/y copy into a buffer whose z column is already zero keeps it equal
to the lifted 2D buffer (this is the per-frame synchronization in `run`,
which does not touch the z column again). -/
theorem syncXY_to3 (p b : List V2) (h : p.length = b.length) :
    syncXY (to3 p) b = to3 b := by
  induction p generalizing b with
  | nil =>
    have hb : b = [] := List.eq_nil_of_length_eq_zero (by simpa using h.symm)
    simp [hb, syncXY, to3]
  | cons r p' ih =>
    cases b with
    | nil => simp at h
    | cons s b' =>
      simp only [List.length_cons, Nat.succ_inj] at h
      simp [syncXY, to3] at ih ⊢
      exact ih b' h

/-- Totality and effect of `Particles.update` when every entity index is in
range of the buffer. -/
theorem Particles.update_total (ps : Particles) (positions : List V3)
    (h : ps.particles.length ≤ positions.length) :
    ∃ ps', ps.update positions = some ps' ∧
      ps'.particles.map Particle.pos = positions.take ps.particles.length ∧
      ps'.particles.length = ps.particles.length := by
  obtain ⟨l', hl', hmap⟩ := updateFrom_total positions ps.particles 0 (by omega)
  refine ⟨⟨l'⟩, by simp [Particles.update, hl'], by simpa using hmap, ?_⟩
  have := congrArg List.length hmap
  simp at this
  simpa [this] using by omega

/-! ### Well-formedness of the orchestrator state

After `__init_system` the collection has exactly as many entities as the
buffers have rows; `run`'s loop body keeps this, which is what makes each
iteration's `update()` succeed. -/

def wfB (s : SimState) : Bool :=
  match s.particles with
  | none => false
  | some ps =>
    decide (ps.particles.length ≤ s.positions_3d.length)
      && decide (s.positions_3d.length = s.positions.length)

/-- One loop iteration of `run` succeeds from a well-formed state, preserves
well-formedness, and performs exactly the buffer writes of the source. -/
theorem runStep_total (s : SimState) (epos : List V2) (h : wfB s = true) :
    ∃ s', runStep s epos = some s' ∧ wfB s' = true ∧
      s'.positions = fillBuf s.positions epos ∧
      s'.positions_3d = syncXY s.positions_3d (fillBuf s.positions epos) := by
  match hps : s.particles with
  | none => simp [wfB, hps] at h
  | some ps =>
    simp only [wfB, hps, Bool.and_eq_true, decide_eq_true_eq] at h
    obtain ⟨hle, hlen⟩ := h
    have hpos1 : (fillBuf s.positions epos).length = s.positions.length :=
      fillBuf_length _ _
    have h3d1 : (syncXY s.positions_3d (fillBuf s.positions epos)).length
        = s.positions_3d.length := by
      rw [syncXY_length, hpos1, hlen]
      omega
    obtain ⟨ps', hup, _, hlen'⟩ := Particles.update_total ps
      (syncXY s.positions_3d (fillBuf s.positions epos)) (by omega)
    refine ⟨{ s with
              positions := fillBuf s.positions epos
              positions_3d := syncXY s.positions_3d (fillBuf s.positions epos)
              particles := some ps' }, ?_, ?_, rfl, rfl⟩
    · simp only [runStep, hps, hup]
    · simp only [wfB, Bool.and_eq_true, decide_eq_true_eq]
      exact ⟨by omega, by rw [h3d1, hlen, ← hpos1]⟩

theorem zeroZ_length (p : List V3) : (zeroZ p).length = p.length := by
  simp [zeroZ]

/-- If the escape flag is first observed true on the `(k+1)`-st poll (polls
`t`..`t+k`), the loop from time `t` runs exactly `k + 1` full cycles: the
first with the current camera-reset flag, the remaining `k` with the flag
cleared, and then exits. -/
theorem runLoop_trace (epos : ℕ → List V2) (esc : ℕ → Bool) :
    ∀ (k : ℕ) (s : SimState) (rc : Bool) (t fuel : ℕ),
      wfB s = true → k + 1 ≤ fuel →
      (∀ i, i < k → esc (t + i) = false) → esc (t + k) = true →
      ∃ s', runLoop s epos esc rc t fuel
        = some (s', cycleEvents rc ++ (List.replicate k (cycleEvents false)).flatten) := by
  intro k
  induction k with
  | zero =>
    intro s rc t fuel hwf hfuel _ hlast
    obtain ⟨fuel', rfl⟩ : ∃ f', fuel = f' + 1 := ⟨fuel - 1, by omega⟩
    obtain ⟨s1, hs1, -, -, -⟩ := runStep_total s (epos t) hwf
    refine ⟨s1, ?_⟩
    have ht : esc t = true := by simpa using hlast
    simp [runLoop, hs1, ht]
  | succ k ih =>
    intro s rc t fuel hwf hfuel hprev hlast
    obtain ⟨fuel', rfl⟩ : ∃ f', fuel = f' + 1 := ⟨fuel - 1, by omega⟩
    obtain ⟨s1, hs1, hwf1, -, -⟩ := runStep_total s (epos t) hwf
    have hesct : esc t = false := by simpa using hprev 0 (by omega)
    obtain ⟨s', hs'⟩ := ih s1 false (t + 1) fuel' hwf1 (by omega)
      (fun i hi => by
        have h := hprev (i + 1) (by omega)
        rwa [show t + (i + 1) = t + 1 + i from by omega] at h)
      (by
        have h := hlast
        rwa [show t + (k + 1) = t + 1 + k from by omega] at h)
    refine ⟨s', ?_⟩
    simp [runLoop, hs1, hesct, hs', List.replicate_succ]

theorem presentFlags_append (a b : List Event) :
    presentFlags (a ++ b) = presentFlags a ++ presentFlags b := by
  simp [presentFlags]

theorem presentFlags_cycle (rc : Bool) : presentFlags (cycleEvents rc) = [rc] :=
  rfl

theorem presentFlags_flatten_replicate (k : ℕ) :
    presentFlags ((List.replicate k (cycleEvents false)).flatten)
      = List.replicate k false := by
  induction k with
  | zero => rfl
  | succ k ih =>
    simp only [List.replicate_succ, List.flatten_cons, presentFlags_append, ih,
      presentFlags_cycle]
    rfl

/-! ### Concrete states used by witnesses and counterexamples -/

/-- An orchestrator built by the constructor with 2 particles, engine sizes
`[4, 5]` and initial positions `[(1,2), (3,4)]`. -/
def W1 : SimState :=
  (ParticleSimulation.construct ([] : Scene) 2 1 2 3 [4, 5] [(1, 2), (3, 4)]).1

/-- The state after one loop iteration on `W1` with fresh engine positions. -/
def W1' : SimState :=
  (runStep W1 [(5, 6), (7, 8)]).getD W1

/-- Engine position oracle used in run-loop witnesses. -/
def wEpos : ℕ → List V2 := fun _ => [(1, 1), (2, 2)]

/-- Escape-flag oracle that first reports true on the third poll. -/
def wEsc : ℕ → Bool := fun i => decide (i = 2)

/-- An orchestrator built by the constructor with a single particle. -/
def S7 : SimState :=
  (ParticleSimulation.construct ([] : Scene) 1 1 2 3 [1] [(0, 0)]).1

/-! ### The claims -/

/-- C1: after the initialization sync in `__init_system` and after the
per-frame sync of each `run()` iteration, every row of the render buffer
carries the matching position-buffer row in its first two columns and zero
in its z column — i.e. the render buffer equals the lifted position
buffer. -/
theorem c1_render_buffer_sync :
    (∀ (s : SimState) (esizes : List ℚ) (epos : List V2),
      ((initSystem s esizes epos).1).positions_3d
        = to3 ((initSystem s esizes epos).1).positions)
    ∧ (∀ (s : SimState) (epos : List V2) (s' : SimState),
      s.positions_3d = to3 s.positions →
      runStep s epos = some s' →
      s'.positions_3d = to3 s'.positions) := by
  constructor
  · intro s esizes epos
    simp only [initSystem]
    apply zeroZ_syncXY
    rw [List.length_replicate, fillBuf_length, List.length_replicate]
  · intro s epos s' hsync hstep
    simp only [runStep] at hstep
    cases hps : s.particles with
    | none => simp [hps] at hstep
    | some ps =>
      simp only [hps] at hstep
      cases hup : ps.update (syncXY s.positions_3d (fillBuf s.positions epos)) with
      | none => simp [hup] at hstep
      | some ps' =>
        simp only [hup, Option.some_inj] at hstep
        rw [← hstep]
        show syncXY s.positions_3d (fillBuf s.positions epos)
          = to3 (fillBuf s.positions epos)
        rw [hsync]
        exact syncXY_to3 _ _ (fillBuf_length _ _).symm

/-- Witness for C1: the per-frame preservation applied to the concretely
initialized state `W1` and one concrete engine answer. -/
theorem c1_render_buffer_sync_witness : W1'.positions_3d = to3 W1'.positions :=
  c1_render_buffer_sync.2 W1 [(5, 6), (7, 8)] W1' (by decide) (by decide)

/-- C2: for every positive `particle_count`, after `__init_system` the
position buffer, the size buffer and the collection's entity list all have
length `particle_count`. -/
theorem c2_init_buffer_lengths (s : SimState) (esizes : List ℚ)
    (epos : List V2) (h : 0 < s.n_particles) :
    ((initSystem s esizes epos).1).positions.length = s.n_particles ∧
    ((initSystem s esizes epos).1).sizes.length = s.n_particles ∧
    ∃ ps, ((initSystem s esizes epos).1).particles = some ps ∧
      ps.particles.length = s.n_particles := by
  refine ⟨?_, ?_, ?_⟩
  · simp only [initSystem]
    rw [fillBuf_length, List.length_replicate]
  · simp only [initSystem]
    rw [fillBuf_length, List.length_replicate]
  · simp only [initSystem]
    refine ⟨_, rfl, ?_⟩
    rw [Particles.init_length, zeroZ_length, syncXY_length, fillBuf_length,
      fillBuf_length, List.length_replicate, List.length_replicate,
      List.length_replicate]
    omega

/-- Witness for C2 at the concrete state `W1` (particle count 2). -/
theorem c2_init_buffer_lengths_witness :
    ((initSystem W1 [1, 2] [(0, 1), (2, 3)]).1).positions.length
      = W1.n_particles ∧
    ((initSystem W1 [1, 2] [(0, 1), (2, 3)]).1).sizes.length
      = W1.n_particles ∧
    ∃ ps, ((initSystem W1 [1, 2] [(0, 1), (2, 3)]).1).particles = some ps ∧
      ps.particles.length = W1.n_particles :=
  c2_init_buffer_lengths W1 [1, 2] [(0, 1), (2, 3)] (by decide)

/-- C3 counterexample: constructing the collection with 3 positions and
2 sizes does not fail and does create entities — exactly 2 of them — so
the claimed `InvalidArgument` failure with no entities created is false. -/
theorem c3_counterexample :
    ((Particles.init ([] : Scene)
        [((0 : ℚ), (0 : ℚ), (0 : ℚ)), (1, 0, 0), (2, 0, 0)]
        [(1 : ℚ), 2]).1).particles.length = 2 ∧
    ((Particles.init ([] : Scene)
        [((0 : ℚ), (0 : ℚ), (0 : ℚ)), (1, 0, 0), (2, 0, 0)]
        [(1 : ℚ), 2]).1).particles ≠ [] := by
  constructor <;> decide

/-- C3 amended: constructing the collection with positions and sizes of
unequal lengths raises no error; `zip` truncation creates exactly
`min (positions.length) (sizes.length)` entities. -/
theorem c3_amended_zip_truncates (plt : Scene) (positions : List V3)
    (sizes : List ℚ) :
    ((Particles.init plt positions sizes).1).particles.length
      = min positions.length sizes.length :=
  Particles.init_length plt positions sizes

/-- C4: each `run()` iteration performs, in order, collision resolution,
boundary constraints, the integration step, the position read, the buffer
copy, `collection.update()`, frame presentation and the termination check;
if the termination signal is first true on iteration `k` (k ≥ 1), the loop
performs exactly `k` full cycles and exits. -/
theorem c4_run_performs_exactly_k_cycles (s : SimState) (epos : ℕ → List V2)
    (esc : ℕ → Bool) (k fuel : ℕ) (hwf : wfB s = true) (hk : 1 ≤ k)
    (hfuel : k ≤ fuel) (hprev : ∀ i, i < k - 1 → esc i = false)
    (hlast : esc (k - 1) = true) :
    ∃ s', ParticleSimulation.run s epos esc fuel
      = some (s', cycleEvents true
          ++ (List.replicate (k - 1) (cycleEvents false)).flatten) := by
  obtain ⟨k', rfl⟩ : ∃ k', k = k' + 1 := ⟨k - 1, by omega⟩
  obtain ⟨s', hs'⟩ := runLoop_trace epos esc k' s true 0 fuel hwf (by omega)
    (fun i hi => by simpa using hprev i (by simpa using hi))
    (by simpa using hlast)
  exact ⟨s', by simpa [ParticleSimulation.run] using hs'⟩

/-- Witness for C4: from the concrete state `W1`, with the escape flag
first true on the third poll, the loop runs exactly 3 cycles. -/
theorem c4_run_performs_exactly_k_cycles_witness :
    ∃ s', ParticleSimulation.run W1 wEpos wEsc 4
      = some (s', cycleEvents true
          ++ (List.replicate 2 (cycleEvents false)).flatten) :=
  c4_run_performs_exactly_k_cycles W1 wEpos wEsc 3 4 (by decide) (by decide)
    (by decide) (by decide) (by decide)

/-- C5: in a run of `k ≥ 1` presented frames, the camera-reset flag passed
to the scene's present call is true on the first frame and false on every
later frame — true exactly once. -/
theorem c5_camera_reset_only_first_frame (s : SimState) (epos : ℕ → List V2)
    (esc : ℕ → Bool) (k fuel : ℕ) (hwf : wfB s = true) (hk : 1 ≤ k)
    (hfuel : k ≤ fuel) (hprev : ∀ i, i < k - 1 → esc i = false)
    (hlast : esc (k - 1) = true) :
    ∃ s' tr, ParticleSimulation.run s epos esc fuel = some (s', tr) ∧
      presentFlags tr = true :: List.replicate (k - 1) false := by
  obtain ⟨k', rfl⟩ : ∃ k', k = k' + 1 := ⟨k - 1, by omega⟩
  obtain ⟨s', hs'⟩ := runLoop_trace epos esc k' s true 0 fuel hwf (by omega)
    (fun i hi => by simpa using hprev i (by simpa using hi))
    (by simpa using hlast)
  refine ⟨s', _, by simpa [ParticleSimulation.run] using hs', ?_⟩
  rw [presentFlags_append, presentFlags_cycle, presentFlags_flatten_replicate]
  simp

/-- Witness for C5 with a concrete 3-frame run. -/
theorem c5_camera_reset_only_first_frame_witness :
    ∃ s' tr, ParticleSimulation.run W1 wEpos wEsc 4 = some (s', tr) ∧
      presentFlags tr = true :: List.replicate 2 false :=
  c5_camera_reset_only_first_frame W1 wEpos wEsc 3 4 (by decide) (by decide)
    (by decide) (by decide) (by decide)

/-- C6: on an initialized orchestrator, setting `particle_count` to `m`
rebuilds a collection of exactly `m` entities, and the `n_particles`,
`r_min`, `r_max` and `v_max` setters all produce the engine-call trace
deallocate-then-init (followed by the size and position reads). -/
theorem c6_setters_deallocate_then_reinit (s : SimState) (m : ℕ) (v : ℚ)
    (esizes : List ℚ) (epos : List V2) (hinit : s.initialised = true)
    (hne : s.n_particles ≠ m) :
    (∃ ps, ((setNParticles s m esizes epos).1).particles = some ps ∧
        ps.particles.length = m) ∧
    (setNParticles s m esizes epos).2
      = [Event.deallocate, Event.einit m s.r_min s.r_max s.v_max,
         Event.getSizes, Event.getPositions] ∧
    (setRMin s v esizes epos).2
      = [Event.deallocate, Event.einit s.n_particles v s.r_max s.v_max,
         Event.getSizes, Event.getPositions] ∧
    (setRMax s v esizes epos).2
      = [Event.deallocate, Event.einit s.n_particles s.r_min v s.v_max,
         Event.getSizes, Event.getPositions] ∧
    (setVMax s v esizes epos).2
      = [Event.deallocate, Event.einit s.n_particles s.r_min s.r_max v,
         Event.getSizes, Event.getPositions] := by
  refine ⟨?_, ?_, ?_, ?_, ?_⟩
  · simp only [setNParticles, initSystem]
    refine ⟨_, rfl, ?_⟩
    rw [Particles.init_length, zeroZ_length, syncXY_length, fillBuf_length,
      fillBuf_length, List.length_replicate, List.length_replicate,
      List.length_replicate]
    omega
  all_goals simp [setNParticles, setRMin, setRMax, setVMax, initSystem, hinit]

/-- Witness for C6: growing the concrete 2-particle state `W1` to 3
particles. -/
theorem c6_setters_deallocate_then_reinit_witness :
    (∃ ps, ((setNParticles W1 3 [1, 2, 3] [(0, 0), (1, 1), (2, 2)]).1).particles
        = some ps ∧ ps.particles.length = 3) ∧
    (setNParticles W1 3 [1, 2, 3] [(0, 0), (1, 1), (2, 2)]).2
      = [Event.deallocate, Event.einit 3 W1.r_min W1.r_max W1.v_max,
         Event.getSizes, Event.getPositions] ∧
    (setRMin W1 7 [1, 2, 3] [(0, 0), (1, 1), (2, 2)]).2
      = [Event.deallocate, Event.einit W1.n_particles 7 W1.r_max W1.v_max,
         Event.getSizes, Event.getPositions] ∧
    (setRMax W1 7 [1, 2, 3] [(0, 0), (1, 1), (2, 2)]).2
      = [Event.deallocate, Event.einit W1.n_particles W1.r_min 7 W1.v_max,
         Event.getSizes, Event.getPositions] ∧
    (setVMax W1 7 [1, 2, 3] [(0, 0), (1, 1), (2, 2)]).2
      = [Event.deallocate, Event.einit W1.n_particles W1.r_min W1.r_max 7,
         Event.getSizes, Event.getPositions] :=
  c6_setters_deallocate_then_reinit W1 3 7 [1, 2, 3] [(0, 0), (1, 1), (2, 2)]
    (by decide) (by decide)

/-- C7 counterexample: on the concrete initialized state `S7`, two
successive teardown calls perform the Engine deallocation twice, not once
— `__del__` has no guard on the `initialised` flag. -/
theorem c7_counterexample :
    ((teardown S7).2 ++ (teardown (teardown S7).1).2).count Event.deallocate
      = 2 ∧
    ((teardown S7).2 ++ (teardown (teardown S7).1).2).count Event.deallocate
      ≠ 1 := by
  constructor <;> decide

/-- C7 amended: teardown is not guarded by the `initialised` flag — every
call performs exactly one Engine deallocation (and leaves the flag
untouched), so two successive calls perform two deallocations. -/
theorem c7_amended_teardown_unguarded (s : SimState) :
    ((teardown s).2).count Event.deallocate = 1 ∧
    ((teardown s).2 ++ (teardown (teardown s).1).2).count Event.deallocate
      = 2 ∧
    (teardown s).1.initialised = s.initialised :=
  ⟨rfl, rfl, rfl⟩

/-- C8: the radius and resolution setters of a particle update only the
stored attribute: the registered sphere primitive is unchanged, while the
getters return the newly stored values. -/
theorem c8_radius_resolution_setters_leave_sphere (p : Particle) (r : ℚ)
    (n : ℕ) :
    ((p.setR r).vsphere = p.vsphere ∧ (p.setR r).r = r) ∧
    ((p.setRes n).vsphere = p.vsphere ∧ (p.setRes n).res = n) :=
  ⟨⟨rfl, rfl⟩, ⟨rfl, rfl⟩⟩

/-- C9: the `color` constructor argument is ignored: the stored color and
the sphere's color are `'gray'` whatever was passed, the sphere registered
with the scene is that gray sphere, and only a later explicit color set
changes the stored value. -/
theorem c9_constructor_color_ignored (plt : Scene) (pos : V3) (radius : ℚ)
    (color : String) (res : ℕ) (tr : Bool) :
    (Particle.init plt pos radius color res tr).1.color = "gray" ∧
    (Particle.init plt pos radius color res tr).1.vsphere.sc = "gray" ∧
    (Particle.init plt pos radius color res tr).2
      = plt ++ [(Particle.init plt pos radius color res tr).1.vsphere] ∧
    ∀ c, ((Particle.init plt pos radius color res tr).1.setColor c).color = c :=
  ⟨rfl, rfl, rfl, fun _ => rfl⟩

/-- C10: `update()` on a collection built from any `positions`/`sizes`
pair — equal lengths or not — never indexes out of range: it succeeds,
keeps the `min` of the two lengths as entity count, and sets entity `i`'s
position to `positions[i]`. -/
theorem c10_update_never_out_of_range (plt : Scene) (positions : List V3)
    (sizes : List ℚ) :
    ∃ ps', ((Particles.init plt positions sizes).1).update positions
        = some ps' ∧
      ps'.particles.length = min positions.length sizes.length ∧
      ps'.particles.map Particle.pos
        = positions.take (min positions.length sizes.length) := by
  have hlen := Particles.init_length plt positions sizes
  obtain ⟨ps', hup, hmap, hlen'⟩ :=
    Particles.update_total ((Particles.init plt positions sizes).1) positions
      (by rw [hlen]; omega)
  exact ⟨ps', hup, by rw [hlen', hlen], by rw [hmap, hlen]⟩
